import Mathlib

/-
Verification development for the cwfriend repository.

Shallow embedding of the Python sources
  cwfriend/context/result.py   (Result enum)
  cwfriend/context/stm32.py    (STM32ReadoutLevel1Context protocol state machine)
  cwfriend/search/base.py      (VCCGlitchSearchStrategy parameter calculator)
  cwfriend/search/linear_vcc.py (LinearVCCGlitchSearch sweep engine)

Modelling conventions:
  * Python floats are modelled as exact rationals.
  * The byte transport is modelled as a script function from read index to
    the response of that read(1) call: `some b` means one byte `b` came
    back, `none` means the read returned no data (an empty list in Python,
    so that indexing `[0]` raises IndexError).
  * Python exceptions are modelled by an explicit error type threaded
    through `Except`; a raised exception propagating out of a function is
    an `Except.error` value.
  * Mutable attributes (`self.scope.glitch.*`, the serial stream position,
    the accumulated results table) are threaded as explicit state.
-/

namespace Cwfriend

/-- The `Result` IntEnum of cwfriend/context/result.py:
NORMAL = 1, MUTE = 2, ODD = 3, SUCCESSFUL = 4, ordered by importance. -/
inductive Result where
  | NORMAL
  | MUTE
  | ODD
  | SUCCESSFUL
deriving DecidableEq, Repr

/-- The integer value of a `Result`, exactly the IntEnum numbering. -/
def Result.val : Result → Nat
  | .NORMAL => 1
  | .MUTE => 2
  | .ODD => 3
  | .SUCCESSFUL => 4

/-- Python exceptions that appear in the embedded code paths. -/
inductive PyExc where
  | valueError
  | oddResult
  | indexError
  | zeroDivision
  | typeError
deriving DecidableEq, Repr

/-- Transport / context state: the read script, the index of the next
read(1) call, the log of bytes written so far, and the number of times the
target reset sequence has been performed. -/
structure TState where
  reads : Nat → Option Nat
  rpos : Nat
  written : List Nat
  resets : Nat

/-- One `self.read(1)` call on the serial transport: consume the next
scripted response. -/
def tread1 (s : TState) : Option Nat × TState :=
  (s.reads s.rpos, { s with rpos := s.rpos + 1 })

/-- `self.write(data)`: append the bytes to the write log. -/
def twrite (bs : List Nat) (s : TState) : TState :=
  { s with written := s.written ++ bs }

/-- `self.reset()` from Context (context/base.py): pulse the reset line.
Only the fact that a reset happened is observable in this model. -/
def treset (s : TState) : TState :=
  { s with resets := s.resets + 1 }

/-- Wake byte `BOOTLOADER_INIT = b"\x7f"`. -/
def BOOTLOADER_INIT : Nat := 0x7f
/-- `ACK = b"\x79"`. -/
def ACK : Nat := 0x79
/-- `NACK = b"\x1f"`. -/
def NACK : Nat := 0x1f
/-- `COMMAND_READ = b"\x11\xee"`. -/
def COMMAND_READ : List Nat := [0x11, 0xee]

/-- `STM32ReadoutLevel1Context.read_ack`: read one byte; return True on
ACK, raise ValueError on NACK, raise OddResultException on any other byte.
Reading `self.read(1)[0]` on an empty read raises IndexError. -/
def read_ack (s : TState) : Except PyExc Bool × TState :=
  match tread1 s with
  | (none, s1) => (.error .indexError, s1)
  | (some b, s1) =>
    if b = ACK then (.ok true, s1)
    else if b = NACK then (.error .valueError, s1)
    else (.error .oddResult, s1)

/-- `STM32ReadoutLevel1Context.init_bootloader`: write the wake byte and
check for an ACK.  The source line `except ValueError, OddResultException:`
is a Python-2-style form (a syntax error under the Python 3 this codebase
otherwise targets); it is modelled with its evident intent of catching both
exception types and returning False.  IndexError is not caught and
propagates. -/
def init_bootloader (s : TState) : Except PyExc Bool × TState :=
  let s1 := twrite [BOOTLOADER_INIT] s
  match read_ack s1 with
  | (.ok _, s2) => (.ok true, s2)
  | (.error .valueError, s2) => (.ok false, s2)
  | (.error .oddResult, s2) => (.ok false, s2)
  | (.error e, s2) => (.error e, s2)

/-- `STM32ReadoutLevel1Context.start_read_memory`: write the read-memory
opcode `0x11 0xee` and await an ACK (exceptions propagate from read_ack). -/
def start_read_memory (s : TState) : Except PyExc Bool × TState :=
  read_ack (twrite COMMAND_READ s)

/-- `STM32ReadoutLevel1Context.send_address`: write the 4 address bytes MSB
to LSB followed by the XOR checksum, then await an ACK. -/
def send_address (address : Nat) (s : TState) : Except PyExc Bool × TState :=
  let b0 := address / 2 ^ 24 % 2 ^ 8
  let b1 := address / 2 ^ 16 % 2 ^ 8
  let b2 := address / 2 ^ 8 % 2 ^ 8
  let b3 := address % 2 ^ 8
  let checksum := Nat.xor (Nat.xor b3 b2) (Nat.xor b1 b0)
  read_ack (twrite [b0, b1, b2, b3, checksum] s)

/-- `STM32ReadoutLevel1Context.send_size`: write `size - 1` as one byte
followed by its bitwise complement, then await an ACK. -/
def send_size (size : Nat) (s : TState) : Except PyExc Bool × TState :=
  let wire_size := (size - 1) % 2 ^ 8
  let checksum := 0xff - wire_size
  read_ack (twrite [wire_size, checksum] s)

/-- `STM32ReadoutLevel1Context.test_one`: reset, init the bootloader, then
try the read command, mapping the exceptions of `start_read_memory` to
Result values.  `init_bootloader` is called outside the try block, so its
exceptions propagate out of `test_one`, and its return value is ignored.
The value `.ok none` models Python falling off the end of the function
(returning None) when `ack` is falsy. -/
def test_one (s : TState) : Except PyExc (Option Result) × TState :=
  let s1 := treset s
  match init_bootloader s1 with
  | (.error e, s2) => (.error e, s2)
  | (.ok _, s2) =>
    match start_read_memory s2 with
    | (.error .valueError, s3) => (.ok (some .NORMAL), s3)
    | (.error .oddResult, s3) => (.ok (some .ODD), s3)
    | (.error .indexError, s3) => (.ok (some .MUTE), s3)
    | (.error e, s3) => (.error e, s3)
    | (.ok ack, s3) => ((.ok (if ack then some .SUCCESSFUL else none)), s3)

/-- Turn a finite read script into a `TState` read function: call `i` of
read(1) gets entry `i` of the list, and any read past the end of the
script gets no data. -/
def ofScript (l : List (Option Nat)) : Nat → Option Nat :=
  fun i => l.getD i none

/-- A fresh context state driven by the given read script. -/
def mkScript (l : List (Option Nat)) : TState :=
  { reads := ofScript l, rpos := 0, written := [], resets := 0 }

/-- The mutable glitch-generator settings written through
`self.scope.glitch.*` by the parameter calculator
(cwfriend/search/base.py). -/
structure GlitchSettings where
  ext_offset : ℤ
  offset : ℚ
  offset_fine : ℚ
  width : ℚ
  width_fine : ℚ
  repeat_count : ℤ
deriving DecidableEq, Repr

/-- A glitch-settings record to start from in concrete runs. -/
def g0 : GlitchSettings :=
  { ext_offset := 0, offset := 0, offset_fine := 0, width := 0,
    width_fine := 0, repeat_count := 1 }

/-- The fractional part returned by Python `math.modf`: it carries the sign
of its argument (the integral part is truncated toward zero). -/
def modfFrac (x : ℚ) : ℚ :=
  if 0 ≤ x then x - ⌊x⌋ else x - ⌈x⌉

/-- `VCCGlitchSearchStrategy.constrain_width`: rescale a desired width
percentage into the band from `min_width_percent` to the 49.8 hard
ceiling. -/
def constrain_width (desired_width min_width_percent : ℚ) : ℚ :=
  (desired_width * (49.8 - min_width_percent)) / 100 + min_width_percent

/-- `VCCGlitchSearchStrategy.calculate_offset_parameters`: translate a
desired time offset into ext_offset (whole glitch-clock cycles) and offset
(sub-cycle position).  The Python source performs `1 / glitch_clk_freq`
with no prior validation, so a zero frequency is a ZeroDivisionError and
any nonzero (even negative) frequency is accepted. -/
def calculate_offset_parameters (desired_offset glitch_clk_freq : ℚ)
    (ext_only : Bool) (g : GlitchSettings) : Except PyExc GlitchSettings :=
  if glitch_clk_freq = 0 then .error .zeroDivision else
  let glitch_clk_period := 1 / glitch_clk_freq
  let ext_offset_ideal := desired_offset / glitch_clk_period
  let ext_offset : ℤ := ⌊ext_offset_ideal⌋
  let g1 := { g with ext_offset := ext_offset, offset_fine := 0 }
  if ext_only then .ok g1
  else
    let ext_frac := modfFrac ext_offset_ideal
    if 0.50 < ext_frac then
      -- over ~50% of a clock: increment ext_offset, use a negative offset
      let g2 := { g1 with ext_offset := g1.ext_offset + 1 }
      let negative_offset := (1.0 - ext_frac) * (-10.0)
      let negative_offset :=
        if -1.0 < negative_offset ∧ negative_offset < 1.0 then
          (-10.0 : ℚ)  -- low offsets don't work
        else negative_offset
      .ok { g2 with offset := negative_offset }
    else
      let ext_frac :=
        if -1.0 < ext_frac ∧ ext_frac < 1.0 then (10.0 : ℚ)
        else ext_frac * 10.0
      .ok { g1 with offset := ext_frac }

/-- `VCCGlitchSearchStrategy.calculate_width_parameters`: translate a
desired pulse duration into a width percentage and a repeat count.  As in
the offset calculation, `1 / glitch_clk_freq` is performed with no prior
validation. -/
def calculate_width_parameters (desired_width glitch_clk_freq
    min_width_percent : ℚ) (g : GlitchSettings) :
    Except PyExc GlitchSettings :=
  if glitch_clk_freq = 0 then .error .zeroDivision else
  let glitch_clk_period := 1 / glitch_clk_freq
  let max_single_width := glitch_clk_period
  let g1 := { g with width_fine := 0 }
  if desired_width < max_single_width then
    -- we can use one cycle
    let width_percentage :=
      constrain_width (desired_width / max_single_width * 100)
        min_width_percent
    .ok { g1 with width := width_percentage, repeat_count := 1 }
  else
    -- we need to use repeat to make multiple pulses
    let repeat_ideal := desired_width / glitch_clk_period
    let rep : ℤ := ⌊repeat_ideal⌋
    let repeat_frac :=
      constrain_width (modfFrac repeat_ideal) min_width_percent
    let width_percentage := constrain_width repeat_frac min_width_percent
    .ok { g1 with width := width_percentage, repeat_count := rep }

/-- Python `max` of two Results: keep the current maximum, replace it only
when the next item compares strictly greater (IntEnum comparison is by
integer value). -/
def maxRes (a b : Result) : Result :=
  if a.val < b.val then b else a

/-- Python `max(results)` over a list of Results: `none` on the empty list
(where CPython raises ValueError), otherwise fold `maxRes` from the first
element. -/
def maxList : List Result → Option Result
  | [] => none
  | r :: rs => some (rs.foldl maxRes r)

/-- The results-to-single-Outcome reduction step of
`LinearVCCGlitchSearch.test_parameter_set` (linear_vcc.py lines 74-79):
`unique_results = set(results)`; if there is exactly one distinct value,
take `results[0]`, otherwise take `max(results)`.  On the empty list the
set has 0 distinct values, so control reaches `max([])`, which raises
ValueError (`max() arg is an empty sequence`); `results[0]` on an empty
list would be the (unreachable) IndexError case. -/
def reduce_results (results : List Result) : Except PyExc Result :=
  if results.dedup.length = 1 then
    match results with
    | r :: _ => .ok r
    | [] => .error .indexError
  else
    match maxList results with
    | some m => .ok m
    | none => .error .valueError

/-- One row of the accumulated results table of LinearVCCGlitchSearch:
the offset and width of the grid point and the reduced Result. -/
structure TrialRecord where
  offset : ℚ
  width : ℚ
  result : Result
deriving DecidableEq, Repr

/-- The construction-time configuration of a LinearVCCGlitchSearch run,
together with the clock frequency read from the scope. -/
structure SweepCfg where
  offset_start : ℚ
  offset_end : ℚ
  offset_inc : ℚ
  width_start : ℚ
  width_end : ℚ
  width_inc : ℚ
  attempts : Nat
  ext_only : Bool
  min_width_percent : ℚ
  clkgen_freq : ℚ

/-- The mutable state of a LinearVCCGlitchSearch run: the glitch-generator
settings, the serial context state, the results table and the current grid
coordinates. -/
structure SweepState where
  glitch : GlitchSettings
  t : TState
  results : List TrialRecord
  current_offset : ℚ
  current_width : ℚ

/-- `LinearVCCGlitchSearch.add_result`: append one row holding the current
offset, the current width and the Result. -/
def add_result (s : SweepState) (r : Result) : SweepState :=
  { s with results :=
      s.results ++ [{ offset := s.current_offset,
                      width := s.current_width, result := r }] }

/-- The attempts loop of `test_parameter_set`: run
setup / `test_one` / teardown `n` times and collect the raw Results.
`test_setup` and `test_teardown` are called by the sweep engine but are
defined nowhere in the repository sources.  Modelled from the spec: the
"target-specific setup → trial → teardown sequence" hooks, which for this
target configure nothing observable, are no-ops on the context state.  An
exception from `test_one` propagates; a None result from `test_one` would
make the later `max` / `.name` accesses fail (unreachable, see
`test_one_not_none`). -/
def run_attempts (n : Nat) (t : TState) :
    Except PyExc (List Result × TState) :=
  match n with
  | 0 => .ok ([], t)
  | Nat.succ m =>
    match test_one t with
    | (.error e, _) => .error e
    | (.ok none, _) => .error .typeError
    | (.ok (some r), t1) =>
      match run_attempts m t1 with
      | .error e => .error e
      | .ok (rs, t2) => .ok (r :: rs, t2)

/-- `LinearVCCGlitchSearch.test_parameter_set`: test the current parameter
set `attempts` times, reduce the raw Results and append one row. -/
def test_parameter_set (cfg : SweepCfg) (s : SweepState) :
    Except PyExc SweepState :=
  match run_attempts cfg.attempts s.t with
  | .error e => .error e
  | .ok (results, t1) =>
    match reduce_results results with
    | .error e => .error e
    | .ok r => .ok (add_result { s with t := t1 } r)

/-- The inner `while current_width < width_end` loop of
`LinearVCCGlitchSearch.search`, with explicit fuel (the Python loop runs
unboundedly; every theorem below quantifies over the fuel). -/
def width_loop (cfg : SweepCfg) (fuel : Nat) (s : SweepState) :
    Except PyExc SweepState :=
  match fuel with
  | 0 => .ok s
  | Nat.succ m =>
    if s.current_width < cfg.width_end then
      match calculate_width_parameters s.current_width cfg.clkgen_freq
          cfg.min_width_percent s.glitch with
      | .error e => .error e
      | .ok gw =>
        match test_parameter_set cfg { s with glitch := gw } with
        | .error e => .error e
        | .ok s1 =>
          width_loop cfg m
            { s1 with current_width := s1.current_width + cfg.width_inc }
    else .ok s

/-- The outer `while current_offset < offset_end` loop of
`LinearVCCGlitchSearch.search`. -/
def offset_loop (cfg : SweepCfg) (fuelO fuelW : Nat) (s : SweepState) :
    Except PyExc SweepState :=
  match fuelO with
  | 0 => .ok s
  | Nat.succ m =>
    if s.current_offset < cfg.offset_end then
      let sW := { s with current_width := cfg.width_start }
      match calculate_offset_parameters sW.current_offset cfg.clkgen_freq
          cfg.ext_only sW.glitch with
      | .error e => .error e
      | .ok go =>
        match width_loop cfg fuelW { sW with glitch := go } with
        | .error e => .error e
        | .ok s1 =>
          offset_loop cfg m fuelW
            { s1 with current_offset := s1.current_offset + cfg.offset_inc }
    else .ok s

/-- `LinearVCCGlitchSearch.search`: reset the grid coordinates to the
range starts, then run the nested sweep loops. -/
def search (cfg : SweepCfg) (fuelO fuelW : Nat) (s : SweepState) :
    Except PyExc SweepState :=
  offset_loop cfg fuelO fuelW
    { s with current_offset := cfg.offset_start,
             current_width := cfg.width_start }

/-- The width coordinates the inner loop visits, generated by the same
fuel recursion as `width_loop`. -/
def gridWidths (fuel : Nat) (w wEnd wInc : ℚ) : List ℚ :=
  match fuel with
  | 0 => []
  | Nat.succ m =>
    if w < wEnd then w :: gridWidths m (w + wInc) wEnd wInc else []

/-- The offset coordinates the outer loop visits. -/
def gridOffsets (fuel : Nat) (o oEnd oInc : ℚ) : List ℚ :=
  match fuel with
  | 0 => []
  | Nat.succ m =>
    if o < oEnd then o :: gridOffsets m (o + oInc) oEnd oInc else []

/-- The (offset, width) grid cells of a sweep in row-major
(offset-major, width-minor) order. -/
def gridCells (cfg : SweepCfg) (fuelO fuelW : Nat) : List (ℚ × ℚ) :=
  (gridOffsets fuelO cfg.offset_start cfg.offset_end cfg.offset_inc).flatMap
    fun o =>
      (gridWidths fuelW cfg.width_start cfg.width_end cfg.width_inc).map
        fun w => (o, w)

/-- A transport stub that ACKs every Init phase and NACKs every command
phase: read calls at even indices return ACK, at odd indices NACK. -/
def nackStub : Nat → Option Nat :=
  fun i => if i % 2 = 0 then some ACK else some NACK

/-- The Outcome one trial yields once its Init-phase read has returned a
byte: decided by the command-phase read exactly as `test_one` classifies
`start_read_memory` (empty read = Mute, ACK = Successful, NACK = Normal,
anything else = Odd). -/
def trialOutcomeAt (reads : Nat → Option Nat) (p : Nat) : Result :=
  match reads (p + 1) with
  | none => .MUTE
  | some b1 =>
    if b1 = ACK then .SUCCESSFUL
    else if b1 = NACK then .NORMAL
    else .ODD

/-- The raw Results of `n` consecutive trials whose first read is at
position `p`: each completed trial consumes exactly two reads. -/
def trialOutcomesAt (reads : Nat → Option Nat) (p : Nat) (n : Nat) :
    List Result :=
  match n with
  | 0 => []
  | Nat.succ m => trialOutcomeAt reads p :: trialOutcomesAt reads (p + 2) m

/-- The records a sweep appends over a transport whose Init-phase reads
all answer: one per grid cell in order, each holding the `reduce_results`
reduction of that cell's `attempts` raw trial outcomes; cell `i` of the
list starts at read position `p + 2 * attempts * i`. -/
def sweepRecords (reads : Nat → Option Nat) (attempts : Nat) :
    Nat → List (ℚ × ℚ) → List TrialRecord
  | _, [] => []
  | p, c :: cs =>
    { offset := c.1, width := c.2,
      result := (reduce_results
        (trialOutcomesAt reads p attempts)).toOption.getD .NORMAL } ::
      sweepRecords reads attempts (p + 2 * attempts) cs

/-- Concrete sweep configuration for the end-to-end scenario: clock
frequency 1 (period 1), offset range (0, 2, 1), width range (0, 1, 1/2),
one attempt per grid point. -/
def cfg0 : SweepCfg :=
  { offset_start := 0, offset_end := 2, offset_inc := 1,
    width_start := 0, width_end := 1, width_inc := 1/2,
    attempts := 1, ext_only := false, min_width_percent := 30,
    clkgen_freq := 1 }

/-- Fresh sweep state over the always-NACK stub transport. -/
def sweep0 : SweepState :=
  { glitch := g0,
    t := { reads := nackStub, rpos := 0, written := [], resets := 0 },
    results := [], current_offset := 0, current_width := 0 }

/-- A sweep state over a completely silent transport: every read comes
back empty. -/
def sweepEmpty : SweepState :=
  { glitch := g0,
    t := { reads := fun _ => none, rpos := 0, written := [], resets := 0 },
    results := [], current_offset := 0, current_width := 0 }

/-- A transport whose Init-phase reads always ACK and whose four
command-phase reads answer NACK, ACK, 0x42 and nothing, giving four
different outcomes across the grid. -/
def mixStub : Nat → Option Nat :=
  fun i =>
    if i % 2 = 0 then some ACK
    else [some NACK, some ACK, some 0x42, none].getD (i / 2) none

/-- A fresh sweep state over `mixStub`. -/
def sweepMix : SweepState :=
  { glitch := g0,
    t := { reads := mixStub, rpos := 0, written := [], resets := 0 },
    results := [], current_offset := 0, current_width := 0 }

end Cwfriend

namespace Cwfriend

/-! ### Helper lemmas about one protocol trial -/

/-- Closed-form behaviour of one trial as a function of the scripted
responses of its two read(1) calls: the wake-byte (Init) read and the
command-dispatch read. -/
theorem test_one_eq (s : TState) :
    test_one s =
      match s.reads s.rpos with
      | none =>
        (.error .indexError,
          { s with rpos := s.rpos + 1,
                   written := s.written ++ [BOOTLOADER_INIT],
                   resets := s.resets + 1 })
      | some _ =>
        ((match s.reads (s.rpos + 1) with
          | none => .ok (some .MUTE)
          | some b1 =>
            if b1 = ACK then .ok (some .SUCCESSFUL)
            else if b1 = NACK then .ok (some .NORMAL)
            else .ok (some .ODD)),
          { s with rpos := s.rpos + 2,
                   written := s.written ++ [BOOTLOADER_INIT] ++ COMMAND_READ,
                   resets := s.resets + 1 }) := by
  rcases s with ⟨reads, rpos, written, resets⟩
  simp only [test_one, treset, init_bootloader, twrite, read_ack, tread1,
    start_read_memory]
  rcases h0 : reads rpos with _ | b0
  · simp
  · rcases h1 : reads (rpos + 1) with _ | b1
    · by_cases hb0a : b0 = ACK <;> by_cases hb0n : b0 = NACK <;> simp_all
    · by_cases hb0a : b0 = ACK <;> by_cases hb0n : b0 = NACK <;>
        by_cases hb1a : b1 = ACK <;> by_cases hb1n : b1 = NACK <;> simp_all

/-- A trial never evaluates to Python None: `read_ack` only ever returns
True on its success path, so the `if ack` fall-through is unreachable. -/
theorem test_one_not_none (s : TState) :
    ∀ e, (test_one s).1 = .ok e → e ≠ none := by
  rw [test_one_eq]
  rcases h0 : s.reads s.rpos with _ | b0
  · intro e he; cases he
  · rcases h1 : s.reads (s.rpos + 1) with _ | b1
    · intro e he; cases he; simp
    · by_cases hb1a : b1 = ACK <;> by_cases hb1n : b1 = NACK <;>
        simp_all

/-! ### Helper lemmas about the parameter calculator -/

/-- The `math.modf` fractional part is below 1. -/
theorem modfFrac_lt_one (x : ℚ) : modfFrac x < 1 := by
  unfold modfFrac
  split
  · have h := Int.sub_one_lt_floor x
    linarith
  · have h := Int.le_ceil x
    linarith

/-- The `math.modf` fractional part is above -1. -/
theorem neg_one_lt_modfFrac (x : ℚ) : -1 < modfFrac x := by
  unfold modfFrac
  split
  · have h := Int.floor_le x
    linarith
  · have h := Int.ceil_lt_add_one x
    linarith

/-- For nonnegative arguments, the `math.modf` fractional part agrees with
the floor-based fractional part. -/
theorem modfFrac_of_nonneg (x : ℚ) (hx : 0 ≤ x) :
    modfFrac x = x - ⌊x⌋ := if_pos hx

/-- With any nonzero clock frequency the offset calculation succeeds. -/
theorem calculate_offset_parameters_isOk (d freq : ℚ) (e : Bool)
    (g : GlitchSettings) (hf : freq ≠ 0) :
    ∃ g1, calculate_offset_parameters d freq e g = .ok g1 := by
  unfold calculate_offset_parameters
  rw [if_neg hf]
  cases e
  · dsimp only [Bool.false_eq_true, if_false]
    by_cases hc : (0.50 : ℚ) < modfFrac (d / (1 / freq))
    · rw [if_pos hc]; exact ⟨_, rfl⟩
    · rw [if_neg hc]; exact ⟨_, rfl⟩
  · exact ⟨_, rfl⟩

/-- With any nonzero clock frequency the width calculation succeeds. -/
theorem calculate_width_parameters_isOk (w freq m : ℚ)
    (g : GlitchSettings) (hf : freq ≠ 0) :
    ∃ g1, calculate_width_parameters w freq m g = .ok g1 := by
  unfold calculate_width_parameters
  rw [if_neg hf]
  by_cases hc : w < 1 / freq
  · rw [if_pos hc]; exact ⟨_, rfl⟩
  · rw [if_neg hc]; exact ⟨_, rfl⟩

/-! ### Helper lemmas about the outcome reduction -/

theorem maxRes_self (r : Result) : maxRes r r = r := by
  simp [maxRes]

theorem maxRes_normal (x : Result) : maxRes .NORMAL x = x := by
  cases x <;> rfl

theorem maxRes_eq_or (a b : Result) : maxRes a b = a ∨ maxRes a b = b := by
  unfold maxRes; split
  · exact Or.inr rfl
  · exact Or.inl rfl

theorem maxRes_right_comm (a x y : Result) :
    maxRes (maxRes a x) y = maxRes (maxRes a y) x := by
  cases a <;> cases x <;> cases y <;> rfl

theorem le_maxRes_left (a b : Result) : a.val ≤ (maxRes a b).val := by
  cases a <;> cases b <;> decide

theorem le_maxRes_right (a b : Result) : b.val ≤ (maxRes a b).val := by
  cases a <;> cases b <;> decide

theorem foldl_maxRes_perm {l l' : List Result} (p : l.Perm l') :
    ∀ a, l.foldl maxRes a = l'.foldl maxRes a := by
  induction p with
  | nil => intro a; rfl
  | cons x p ih => intro a; simpa using ih (maxRes a x)
  | swap x y l => intro a; simp [List.foldl, maxRes_right_comm]
  | trans p q ih1 ih2 => intro a; rw [ih1, ih2]

theorem maxList_cons_eq (x : Result) (xs : List Result) :
    maxList (x :: xs) = some ((x :: xs).foldl maxRes .NORMAL) := by
  simp [maxList, List.foldl, maxRes_normal]

theorem maxList_perm {l l' : List Result} (p : l.Perm l') :
    maxList l = maxList l' := by
  cases l with
  | nil =>
    cases l' with
    | nil => rfl
    | cons y ys => exact absurd p.symm.eq_nil (by simp)
  | cons x xs =>
    cases l' with
    | nil => exact absurd p.eq_nil (by simp)
    | cons y ys => rw [maxList_cons_eq, maxList_cons_eq, foldl_maxRes_perm p]

theorem seed_le_foldl_maxRes :
    ∀ (l : List Result) (a : Result), a.val ≤ (l.foldl maxRes a).val
  | [], _ => le_refl _
  | x :: xs, a =>
    le_trans (le_maxRes_left a x) (seed_le_foldl_maxRes xs (maxRes a x))

theorem mem_le_foldl_maxRes :
    ∀ (l : List Result) (a x : Result), x ∈ l →
      x.val ≤ (l.foldl maxRes a).val
  | y :: ys, a, x, h => by
    rcases List.mem_cons.1 h with rfl | h'
    · exact le_trans (le_maxRes_right a x)
        (seed_le_foldl_maxRes ys (maxRes a x))
    · exact mem_le_foldl_maxRes ys (maxRes a y) x h'

theorem foldl_maxRes_mem :
    ∀ (l : List Result) (a : Result),
      l.foldl maxRes a = a ∨ l.foldl maxRes a ∈ l
  | [], _ => Or.inl rfl
  | x :: xs, a => by
    simp only [List.foldl]
    rcases foldl_maxRes_mem xs (maxRes a x) with h | h
    · rcases maxRes_eq_or a x with ha | hx
      · exact Or.inl (h.trans ha)
      · exact Or.inr (by rw [h, hx]; exact List.mem_cons_self x xs)
    · exact Or.inr (List.mem_cons_of_mem _ h)

/-- A list whose dedup is a singleton has all elements equal. -/
theorem dedup_all_eq {l : List Result} (h : l.dedup.length = 1) :
    ∀ x ∈ l, ∀ y ∈ l, x = y := by
  obtain ⟨a, ha⟩ := List.length_eq_one.1 h
  intro x hx y hy
  have hx' := List.mem_dedup.2 hx
  have hy' := List.mem_dedup.2 hy
  rw [ha, List.mem_singleton] at hx' hy'
  rw [hx', hy']

theorem foldl_maxRes_const {r : Result} :
    ∀ {l : List Result}, (∀ x ∈ l, x = r) → l.foldl maxRes r = r
  | [], _ => rfl
  | x :: xs, h => by
    have hx : x = r := h x (List.mem_cons_self x xs)
    have hmr : maxRes r x = r := by rw [hx, maxRes_self]
    simp only [List.foldl, hmr]
    exact foldl_maxRes_const fun y hy => h y (List.mem_cons_of_mem _ hy)

/-- The two branches of the reduction collapse to `max`: on a consistent
list, `results[0]` is also the maximum. -/
theorem reduce_results_eq_max : ∀ rs : List Result,
    reduce_results rs =
      match maxList rs with
      | none => .error .valueError
      | some m => .ok m
  | [] => rfl
  | r :: rs => by
    unfold reduce_results
    by_cases h : (r :: rs).dedup.length = 1
    · rw [if_pos h]
      have hall := dedup_all_eq h
      have hfold : rs.foldl maxRes r = r :=
        foldl_maxRes_const fun x hx =>
          hall x (List.mem_cons_of_mem _ hx) r (List.mem_cons_self r rs)
      have hm : maxList (r :: rs) = some r := by simp [maxList, hfold]
      rw [hm]
    · rw [if_neg h]
      rfl

/-! ### Helper lemmas for sweeps whose trials complete -/

/-- When the Init-phase read answers with a byte, one trial returns the
script-determined outcome and consumes exactly two reads. -/
theorem test_one_answered (t : TState) (b0 : Nat)
    (h0 : t.reads t.rpos = some b0) :
    test_one t = (.ok (some (trialOutcomeAt t.reads t.rpos)),
      { t with rpos := t.rpos + 2,
               written := t.written ++ [BOOTLOADER_INIT] ++ COMMAND_READ,
               resets := t.resets + 1 }) := by
  rw [test_one_eq, h0]
  rcases h1 : t.reads (t.rpos + 1) with _ | b1
  · simp [trialOutcomeAt, h1]
  · simp only [trialOutcomeAt, h1]
    split_ifs <;> rfl

/-- Over a transport whose even-position (Init-phase) reads all answer,
`n` attempts collect exactly the scripted trial outcomes and advance the
read position by `2 * n`. -/
theorem run_attempts_answered (reads : Nat → Option Nat)
    (hbt : ∀ i, reads (2 * i) ≠ none) :
    ∀ (n k : Nat) (t : TState), t.reads = reads → t.rpos = 2 * k →
      ∃ t', run_attempts n t = .ok (trialOutcomesAt reads t.rpos n, t') ∧
        t'.reads = reads ∧ t'.rpos = t.rpos + 2 * n
  | 0, _, t, hr, _ => ⟨t, rfl, hr, by omega⟩
  | Nat.succ m, k, t, hr, hp => by
    obtain ⟨b0, hb0⟩ := Option.ne_none_iff_exists'.1 (hbt k)
    have h0 : t.reads t.rpos = some b0 := by rw [hr, hp]; exact hb0
    have h1 := test_one_answered t b0 h0
    obtain ⟨t', hrun, hr', hp'⟩ :=
      run_attempts_answered reads hbt m (k + 1)
        { t with rpos := t.rpos + 2,
                 written := t.written ++ [BOOTLOADER_INIT] ++ COMMAND_READ,
                 resets := t.resets + 1 }
        hr (by simp only []; omega)
    refine ⟨t', ?_, hr', by simp only [] at hp'; omega⟩
    rw [run_attempts, h1]
    dsimp only
    rw [hrun]
    dsimp only
    rw [hr]
    rfl

/-- Reduction of a non-empty outcome list always succeeds. -/
theorem reduce_results_ok_of_ne_nil :
    ∀ {rs : List Result}, rs ≠ [] → ∃ m, reduce_results rs = .ok m
  | [], h => absurd rfl h
  | r :: rs, _ => by
    rw [reduce_results_eq_max]
    exact ⟨_, rfl⟩

/-- `sweepRecords` distributes over concatenation of cell lists, the
second block starting where the first block's reads end. -/
theorem sweepRecords_append (reads : Nat → Option Nat) (a : Nat) :
    ∀ (l1 l2 : List (ℚ × ℚ)) (p : Nat),
      sweepRecords reads a p (l1 ++ l2) =
        sweepRecords reads a p l1 ++
          sweepRecords reads a (p + 2 * a * l1.length) l2
  | [], l2, p => by simp [sweepRecords]
  | c :: l1, l2, p => by
    have hpos : p + 2 * a + 2 * a * l1.length =
        p + 2 * a * (l1.length + 1) := by ring
    simp only [List.cons_append, sweepRecords, List.length_cons,
      List.append_eq]
    rw [sweepRecords_append reads a l1 l2 (p + 2 * a), hpos]

/-- Over a transport whose Init-phase reads all answer, one grid point
appends exactly one record holding the reduced scripted outcome. -/
theorem test_parameter_set_answered (cfg : SweepCfg) (s : SweepState)
    (reads : Nat → Option Nat) (k : Nat)
    (hbt : ∀ i, reads (2 * i) ≠ none) (ha : 1 ≤ cfg.attempts)
    (hr : s.t.reads = reads) (hp : s.t.rpos = 2 * k) :
    ∃ t', test_parameter_set cfg s =
      .ok { s with t := t',
                   results := s.results ++
                     [{ offset := s.current_offset,
                        width := s.current_width,
                        result := (reduce_results (trialOutcomesAt reads
                          s.t.rpos cfg.attempts)).toOption.getD .NORMAL }] } ∧
      t'.reads = reads ∧ t'.rpos = s.t.rpos + 2 * cfg.attempts := by
  obtain ⟨t', hrun, hr', hp'⟩ :=
    run_attempts_answered reads hbt cfg.attempts k s.t hr hp
  refine ⟨t', ?_, hr', hp'⟩
  unfold test_parameter_set
  rw [hrun]
  dsimp only
  obtain ⟨m0, hm0⟩ : ∃ m0, cfg.attempts = m0 + 1 :=
    ⟨cfg.attempts - 1, by omega⟩
  obtain ⟨r, hred⟩ := reduce_results_ok_of_ne_nil
    (show trialOutcomesAt reads s.t.rpos cfg.attempts ≠ [] by
      rw [hm0]; simp [trialOutcomesAt])
  rw [hred]
  rfl

/-- Over a transport whose Init-phase reads all answer, the inner loop
appends one record per visited width, in order, with the scripted
outcomes. -/
theorem width_loop_answered (cfg : SweepCfg) (reads : Nat → Option Nat)
    (hbt : ∀ i, reads (2 * i) ≠ none) (hf : cfg.clkgen_freq ≠ 0)
    (ha : 1 ≤ cfg.attempts) :
    ∀ (fuel k : Nat) (s : SweepState), s.t.reads = reads →
      s.t.rpos = 2 * k →
      ∃ s', width_loop cfg fuel s = .ok s' ∧
        s'.results = s.results ++
          sweepRecords reads cfg.attempts s.t.rpos
            ((gridWidths fuel s.current_width cfg.width_end
                cfg.width_inc).map (fun w => (s.current_offset, w))) ∧
        s'.current_offset = s.current_offset ∧
        s'.t.reads = reads ∧
        s'.t.rpos = s.t.rpos + 2 * cfg.attempts *
          (gridWidths fuel s.current_width cfg.width_end
            cfg.width_inc).length
  | 0, _, s, hr, _ =>
    ⟨s, rfl, by simp [gridWidths, sweepRecords], rfl, hr,
      by simp [gridWidths]⟩
  | Nat.succ m, k, s, hr, hp => by
    by_cases hc : s.current_width < cfg.width_end
    · obtain ⟨gw, hgw⟩ := calculate_width_parameters_isOk s.current_width
        cfg.clkgen_freq cfg.min_width_percent s.glitch hf
      obtain ⟨t1, htps, hr1, hp1⟩ :=
        test_parameter_set_answered cfg { s with glitch := gw } reads k
          hbt ha hr hp
      obtain ⟨s', hloop, hres, hoff, hr', hp'⟩ :=
        width_loop_answered cfg reads hbt hf ha m (k + cfg.attempts)
          { s with glitch := gw, t := t1,
                   results := s.results ++
                     [{ offset := s.current_offset,
                        width := s.current_width,
                        result := (reduce_results (trialOutcomesAt reads
                          s.t.rpos cfg.attempts)).toOption.getD .NORMAL }],
                   current_width := s.current_width + cfg.width_inc }
          hr1 (by simp only [] at hp1 ⊢; omega)
      refine ⟨s', ?_, ?_, by rw [hoff], hr', ?_⟩
      · rw [width_loop, if_pos hc, hgw]
        dsimp only
        rw [htps]
        dsimp only
        exact hloop
      · rw [hres]
        dsimp only
        rw [hp1]
        dsimp only
        rw [gridWidths, if_pos hc]
        simp [sweepRecords, List.append_assoc]
      · rw [hp']
        dsimp only
        rw [hp1]
        dsimp only
        rw [gridWidths, if_pos hc, List.length_cons]
        ring
    · refine ⟨s, ?_, ?_, rfl, hr, ?_⟩
      · rw [width_loop, if_neg hc]
      · rw [gridWidths, if_neg hc]
        simp [sweepRecords]
      · rw [gridWidths, if_neg hc]
        simp

/-- Over a transport whose Init-phase reads all answer, the outer loop
appends the full row-major grid of records with the scripted outcomes. -/
theorem offset_loop_answered (cfg : SweepCfg) (reads : Nat → Option Nat)
    (hbt : ∀ i, reads (2 * i) ≠ none) (hf : cfg.clkgen_freq ≠ 0)
    (ha : 1 ≤ cfg.attempts) :
    ∀ (fuelO fuelW k : Nat) (s : SweepState), s.t.reads = reads →
      s.t.rpos = 2 * k →
      ∃ s', offset_loop cfg fuelO fuelW s = .ok s' ∧
        s'.results = s.results ++
          sweepRecords reads cfg.attempts s.t.rpos
            ((gridOffsets fuelO s.current_offset cfg.offset_end
                cfg.offset_inc).flatMap
              (fun o =>
                (gridWidths fuelW cfg.width_start cfg.width_end
                    cfg.width_inc).map (fun w => (o, w)))) ∧
        s'.t.reads = reads ∧
        s'.t.rpos = s.t.rpos + 2 * cfg.attempts *
          ((gridOffsets fuelO s.current_offset cfg.offset_end
              cfg.offset_inc).length *
            (gridWidths fuelW cfg.width_start cfg.width_end
              cfg.width_inc).length)
  | 0, fuelW, _, s, hr, _ =>
    ⟨s, rfl, by simp [gridOffsets, sweepRecords], hr,
      by simp [gridOffsets]⟩
  | Nat.succ m, fuelW, k, s, hr, hp => by
    by_cases hc : s.current_offset < cfg.offset_end
    · obtain ⟨go, hgo⟩ := calculate_offset_parameters_isOk s.current_offset
        cfg.clkgen_freq cfg.ext_only s.glitch hf
      obtain ⟨s1, hwl, hres1, hoff1, hr1, hp1⟩ :=
        width_loop_answered cfg reads hbt hf ha fuelW k
          { s with current_width := cfg.width_start, glitch := go } hr hp
      obtain ⟨s', hloop, hres, hr', hp'⟩ :=
        offset_loop_answered cfg reads hbt hf ha m fuelW
          (k + cfg.attempts *
            (gridWidths fuelW cfg.width_start cfg.width_end
              cfg.width_inc).length)
          { s1 with current_offset := s1.current_offset + cfg.offset_inc }
          hr1 (by simp only [] at hp1 ⊢; rw [hp1, hp]; ring)
      refine ⟨s', ?_, ?_, hr', ?_⟩
      · rw [offset_loop, if_pos hc]
        dsimp only
        rw [hgo]
        dsimp only
        rw [hwl]
        dsimp only
        exact hloop
      · rw [hres]
        dsimp only
        rw [hoff1, hres1, hp1]
        dsimp only
        rw [gridOffsets, if_pos hc]
        simp only [List.flatMap_cons,
          sweepRecords_append reads cfg.attempts, List.length_map,
          List.append_assoc]
      · rw [hp']
        dsimp only
        rw [hp1, hoff1]
        dsimp only
        rw [gridOffsets, if_pos hc, List.length_cons]
        ring
    · refine ⟨s, ?_, ?_, hr, ?_⟩
      · rw [offset_loop, if_neg hc]
      · rw [gridOffsets, if_neg hc]
        simp [sweepRecords]
      · rw [gridOffsets, if_neg hc]
        simp

/-- Over any transport whose Init-phase reads all answer, a whole search
run appends exactly one record per row-major grid cell, holding the
reduction of that cell's scripted trial outcomes. -/
theorem search_answered (cfg : SweepCfg) (fuelO fuelW : Nat)
    (s : SweepState) (reads : Nat → Option Nat) (k : Nat)
    (hbt : ∀ i, reads (2 * i) ≠ none) (hf : cfg.clkgen_freq ≠ 0)
    (ha : 1 ≤ cfg.attempts) (hr : s.t.reads = reads)
    (hp : s.t.rpos = 2 * k) :
    ∃ s', search cfg fuelO fuelW s = .ok s' ∧
      s'.results = s.results ++
        sweepRecords reads cfg.attempts s.t.rpos
          (gridCells cfg fuelO fuelW) := by
  obtain ⟨s', hloop, hres, hr', hp'⟩ :=
    offset_loop_answered cfg reads hbt hf ha fuelO fuelW k
      { s with current_offset := cfg.offset_start,
               current_width := cfg.width_start } hr hp
  exact ⟨s', hloop, by rw [hres]; rfl⟩

/-! ### Claim theorems -/

/-- Claim C1 (corrected).  Amended per-trial error absorption: an empty
read at the command-dispatch phase (after an ACKed Init) collapses the
trial to Mute, and once the Init-phase read has returned a byte every
command-phase response is absorbed into one of the four Outcome values;
but an empty read at the Init wake-byte phase is NOT absorbed — it
escapes `test_one` as an IndexError exception, because `init_bootloader`
is called outside the try block and does not catch IndexError. -/
theorem claim_C1_error_absorption (s : TState) :
    (s.reads s.rpos = none → (test_one s).1 = .error .indexError) ∧
    (s.reads s.rpos = some ACK → s.reads (s.rpos + 1) = none →
      (test_one s).1 = .ok (some .MUTE)) ∧
    (∀ b0 b1, s.reads s.rpos = some b0 → s.reads (s.rpos + 1) = some b1 →
      (test_one s).1 =
        (if b1 = ACK then .ok (some .SUCCESSFUL)
         else if b1 = NACK then .ok (some .NORMAL)
         else .ok (some .ODD))) := by
  refine ⟨fun h0 => ?_, fun h0 h1 => ?_, fun b0 b1 h0 h1 => ?_⟩ <;>
      rw [test_one_eq]
  · simp [h0]
  · simp [h0, h1]
  · simp [h0, h1]

/-- Claim C1, witness: an ACKed Init followed by an empty command-phase
read yields Mute. -/
theorem claim_C1_witness :
    (test_one (mkScript [some ACK, none])).1 = .ok (some .MUTE) :=
  (claim_C1_error_absorption (mkScript [some ACK, none])).2.1 rfl rfl

/-- Claim C1, counterexample: on a transport that returns no data at all,
the empty read happens at the Init wake-byte phase and the trial does not
return Outcome Mute — `test_one` raises IndexError to its caller. -/
theorem claim_C1_counterexample :
    (test_one (mkScript [])).1 = .error .indexError := rfl

/-- Claim C3 (confirmed).  The protocol trial classification table:
[ACK] then [NACK] gives Normal; ACK at every phase gives Successful;
[ACK] then an empty read gives Mute; [ACK] then the byte 0x42 (neither
ACK nor NACK) gives Odd. -/
theorem claim_C3_trial_classification :
    (test_one (mkScript [some ACK, some NACK])).1 = .ok (some .NORMAL) ∧
    (test_one (mkScript [some ACK, some ACK, some ACK, some ACK])).1 =
      .ok (some .SUCCESSFUL) ∧
    (test_one (mkScript [some ACK, none])).1 = .ok (some .MUTE) ∧
    (test_one (mkScript [some ACK, some 0x42])).1 = .ok (some .ODD) :=
  ⟨rfl, rfl, rfl, rfl⟩

/-- Claim C4 (corrected).  Amended: a NACK at the Init phase does NOT
abort the trial — `init_bootloader` absorbs it into an ignored False and
`test_one` proceeds to the command-dispatch phase, writing the opcode
0x11 0xee; the trial's outcome is then decided entirely by the
command-phase response. -/
theorem claim_C4_init_nack_proceeds (rest : List (Option Nat)) :
    (test_one (mkScript (some NACK :: rest))).2.written =
      [BOOTLOADER_INIT] ++ COMMAND_READ ∧
    (test_one (mkScript (some NACK :: rest))).1 =
      (match rest.getD 0 none with
       | none => .ok (some .MUTE)
       | some b1 =>
         if b1 = ACK then .ok (some .SUCCESSFUL)
         else if b1 = NACK then .ok (some .NORMAL)
         else .ok (some .ODD)) := by
  rw [test_one_eq]
  constructor <;> simp [mkScript, ofScript]

/-- Claim C4, counterexample: with a NACK at Init and nothing after it,
the trial is classified Mute — not Normal — and the command opcode
0x11 0xee was written, so the command-dispatch phase was reached. -/
theorem claim_C4_counterexample :
    (test_one (mkScript [some NACK])).1 = .ok (some .MUTE) ∧
    (test_one (mkScript [some NACK])).2.written =
      [BOOTLOADER_INIT] ++ COMMAND_READ :=
  ⟨rfl, rfl⟩

/-- Claim C10 (confirmed).  A trial writes at most the wake byte and the
command opcode — never address, size, or checksum bytes (`send_address`
and `send_size` write 5- and 2-byte blocks which never appear) — and an
ACK at the command-dispatch phase makes `test_one` return Successful
immediately. -/
theorem claim_C10_success_short_circuit (s : TState) :
    ((test_one s).2.written = s.written ++ [BOOTLOADER_INIT] ∨
      (test_one s).2.written =
        s.written ++ [BOOTLOADER_INIT] ++ COMMAND_READ) ∧
    (s.reads s.rpos = some ACK → s.reads (s.rpos + 1) = some ACK →
      (test_one s).1 = .ok (some .SUCCESSFUL)) := by
  constructor
  · rcases h0 : s.reads s.rpos with _ | b0 <;> rw [test_one_eq] <;> simp [h0]
  · intro h0 h1; rw [test_one_eq]; simp [h0, h1]

/-- Claim C10, witness: ACK at Init then ACK at command dispatch returns
Successful. -/
theorem claim_C10_witness :
    (test_one (mkScript [some ACK, some ACK])).1 = .ok (some .SUCCESSFUL) :=
  (claim_C10_success_short_circuit (mkScript [some ACK, some ACK])).2 rfl rfl

/-- Claim C2 (corrected).  Amended offset encoding, with ext_only = False
and a nonzero clock frequency, in terms of the signed `math.modf`
fractional part f of d/p (which differs from the mathematical fractional
part for negative d/p): if f > 0.5 the coarse offset is floor(d/p)+1 and
the sub-cycle offset is the negative value (1-f)*(-10), snapped to -10
whenever f > 0.9; if f <= 0.5 the coarse offset is floor(d/p) and the
sub-cycle offset is ALWAYS the snap constant 10.0, because the near-zero
test is applied to the raw fraction — which always lies in (-1, 1) —
rather than to the ten-fold encoded value, so the fraction is never
encoded proportionally on the positive side. -/
theorem claim_C2_offset_encoding (d freq : ℚ) (g : GlitchSettings)
    (hf : freq ≠ 0) :
    ∃ g1, calculate_offset_parameters d freq false g = .ok g1 ∧
      g1.offset_fine = 0 ∧
      (0.50 < modfFrac (d / (1 / freq)) →
        g1.ext_offset = ⌊d / (1 / freq)⌋ + 1 ∧
        (9/10 < modfFrac (d / (1 / freq)) → g1.offset = -10) ∧
        (modfFrac (d / (1 / freq)) ≤ 9/10 →
          g1.offset = (1 - modfFrac (d / (1 / freq))) * (-10)) ∧
        g1.offset < 0) ∧
      (modfFrac (d / (1 / freq)) ≤ 0.50 →
        g1.ext_offset = ⌊d / (1 / freq)⌋ ∧ g1.offset = 10) := by
  have hlt1 := modfFrac_lt_one (d / (1 / freq))
  have hgt1 := neg_one_lt_modfFrac (d / (1 / freq))
  unfold calculate_offset_parameters
  rw [if_neg hf]
  dsimp only [Bool.false_eq_true, if_false]
  by_cases hc : (0.50 : ℚ) < modfFrac (d / (1 / freq))
  · rw [if_pos hc]
    by_cases h9 : (9/10 : ℚ) < modfFrac (d / (1 / freq))
    · have hsnap : (-1.0 : ℚ) < (1.0 - modfFrac (d / (1 / freq))) * -10.0 ∧
          (1.0 - modfFrac (d / (1 / freq))) * -10.0 < 1.0 := by
        constructor <;> nlinarith
      rw [if_pos hsnap]
      refine ⟨_, rfl, rfl, fun _ => ⟨rfl, fun _ => by norm_num,
        fun h9le => absurd h9 (not_lt.2 h9le), by norm_num⟩,
        fun hle => absurd hc (not_lt.2 hle)⟩
    · push_neg at h9
      have hsnap : ¬ ((-1.0 : ℚ) < (1.0 - modfFrac (d / (1 / freq))) * -10.0 ∧
          (1.0 - modfFrac (d / (1 / freq))) * -10.0 < 1.0) := by
        rintro ⟨ha, -⟩
        nlinarith
      rw [if_neg hsnap]
      refine ⟨_, rfl, rfl, fun _ => ⟨rfl,
        fun h9lt => absurd h9lt (not_lt.2 h9), fun _ => by norm_num,
        by nlinarith⟩, fun hle => absurd hc (not_lt.2 hle)⟩
  · rw [if_neg hc]
    have hsnap : (-1.0 : ℚ) < modfFrac (d / (1 / freq)) ∧
        modfFrac (d / (1 / freq)) < 1.0 := by
      constructor <;> linarith
    rw [if_pos hsnap]
    push_neg at hc
    exact ⟨_, rfl, rfl, fun hgt => absurd hgt (not_lt.2 hc),
      fun _ => ⟨rfl, by norm_num⟩⟩

/-- Claim C2, counterexample: at d/p = 2/5 (fraction 0.4, at most 0.5) the
direct encoding would be 0.4 * 10 = 4, whose magnitude is not inside
(-1, 1), so the claim says the written sub-cycle offset is 4 with no
snap; the code instead writes the snap constant 10. -/
theorem claim_C2_counterexample :
    calculate_offset_parameters (2/5) 1 false g0 =
      .ok { ext_offset := 0, offset := 10, offset_fine := 0, width := 0,
            width_fine := 0, repeat_count := 1 } ∧
    (2/5 : ℚ) * 10 = 4 ∧ (1 : ℚ) < 4 := by
  refine ⟨?_, by norm_num, by norm_num⟩
  norm_num [calculate_offset_parameters, modfFrac, g0]

/-- Claim C2, witness: the amended encoding at d = 2/5, p = 1. -/
theorem claim_C2_witness :
    ∃ g1, calculate_offset_parameters (2/5) 1 false g0 = .ok g1 ∧
      g1.offset_fine = 0 ∧
      (0.50 < modfFrac ((2/5 : ℚ) / (1 / 1)) →
        g1.ext_offset = ⌊(2/5 : ℚ) / (1 / 1)⌋ + 1 ∧
        (9/10 < modfFrac ((2/5 : ℚ) / (1 / 1)) → g1.offset = -10) ∧
        (modfFrac ((2/5 : ℚ) / (1 / 1)) ≤ 9/10 →
          g1.offset = (1 - modfFrac ((2/5 : ℚ) / (1 / 1))) * (-10)) ∧
        g1.offset < 0) ∧
      (modfFrac ((2/5 : ℚ) / (1 / 1)) ≤ 0.50 →
        g1.ext_offset = ⌊(2/5 : ℚ) / (1 / 1)⌋ ∧ g1.offset = 10) :=
  claim_C2_offset_encoding (2/5) 1 g0 (by norm_num)

/-- Claim C5 (corrected).  Amended: the parameter calculator performs no
clock-frequency validation at all.  A zero frequency fails only at the
period division itself (Python ZeroDivisionError, not an
InvalidConfiguration check before the division); any nonzero frequency —
including negative ones — is accepted, and negative desired offset and
width values are likewise accepted. -/
theorem claim_C5_no_validation (d m : ℚ) (e : Bool) (g : GlitchSettings) :
    calculate_offset_parameters d 0 e g = .error .zeroDivision ∧
    calculate_width_parameters d 0 m g = .error .zeroDivision ∧
    (∀ freq : ℚ, freq ≠ 0 →
      (calculate_offset_parameters d freq e g).isOk = true ∧
      (calculate_width_parameters d freq m g).isOk = true) := by
  refine ⟨rfl, rfl, fun freq hf => ⟨?_, ?_⟩⟩
  · obtain ⟨g1, h⟩ := calculate_offset_parameters_isOk d freq e g hf
    rw [h]; rfl
  · obtain ⟨g1, h⟩ := calculate_width_parameters_isOk d freq m g hf
    rw [h]; rfl

/-- Claim C5, counterexample: with the negative clock frequency -1 both
calculator entry points run to completion — no InvalidConfiguration (or
any other) failure occurs. -/
theorem claim_C5_counterexample :
    (calculate_offset_parameters 1 (-1) false g0).isOk = true ∧
    (calculate_width_parameters 1 (-1) 1 g0).isOk = true := by
  constructor <;>
    norm_num [calculate_offset_parameters, calculate_width_parameters,
      modfFrac, constrain_width, g0, Except.isOk, Except.toBool, Int.ceil_neg]

/-- Claim C5, witness: a negative desired offset and width with a valid
frequency are accepted. -/
theorem claim_C5_witness :
    (calculate_offset_parameters (-3) 5 false g0).isOk = true ∧
    (calculate_width_parameters (-3) 5 1 g0).isOk = true :=
  (claim_C5_no_validation (-3) 1 false g0).2.2 5 (by norm_num)

/-- Claim C6 (confirmed).  The outcome reduction of test_parameter_set:
a non-empty all-equal list reduces to that value; every non-empty list
reduces to a member that is maximal under the Normal < Mute < Odd <
Successful ordering; reduction of [x, x, x] is x; the result is invariant
under permutation of the input; and the empty list fails with ValueError
(Python's invalid-argument error, from `max([])`). -/
theorem claim_C6_reduce_spec :
    (∀ (r : Result) (rs : List Result), (∀ x ∈ r :: rs, x = r) →
      reduce_results (r :: rs) = .ok r) ∧
    (∀ rs : List Result, rs ≠ [] → ∃ m, reduce_results rs = .ok m ∧
      m ∈ rs ∧ ∀ x ∈ rs, x.val ≤ m.val) ∧
    (∀ x : Result, reduce_results [x, x, x] = .ok x) ∧
    (∀ rs rs' : List Result, rs.Perm rs' →
      reduce_results rs = reduce_results rs') ∧
    reduce_results [] = .error .valueError := by
  refine ⟨?_, ?_, ?_, ?_, rfl⟩
  · intro r rs hall
    rw [reduce_results_eq_max]
    have hfold : rs.foldl maxRes r = r :=
      foldl_maxRes_const fun x hx => hall x (List.mem_cons_of_mem _ hx)
    simp [maxList, hfold]
  · intro rs hne
    match rs with
    | r :: rs =>
      rw [reduce_results_eq_max]
      refine ⟨rs.foldl maxRes r, by simp [maxList], ?_, ?_⟩
      · rcases foldl_maxRes_mem rs r with h | h
        · rw [h]; exact List.mem_cons_self r rs
        · exact List.mem_cons_of_mem _ h
      · intro x hx
        rcases List.mem_cons.1 hx with rfl | h'
        · exact seed_le_foldl_maxRes rs x
        · exact mem_le_foldl_maxRes rs r x h'
  · intro x; cases x <;> rfl
  · intro rs rs' p
    rw [reduce_results_eq_max, reduce_results_eq_max, maxList_perm p]

/-- Claim C6, witness: reduction is invariant under a concrete
permutation (and picks the maximum, Successful). -/
theorem claim_C6_witness :
    reduce_results [Result.NORMAL, Result.SUCCESSFUL, Result.NORMAL] =
      reduce_results [Result.SUCCESSFUL, Result.NORMAL, Result.NORMAL] :=
  claim_C6_reduce_spec.2.2.2.1 _ _ (List.Perm.swap _ _ _)

/-- Claim C7 (corrected).  Amended: the sweep visits grid cells in
deterministic row-major order (offset-major, width-minor, starting at the
range starts, an axis ending once its value reaches or passes its end)
and, over every transport whose Init-phase reads answer with a byte —
i.e. whenever every trial completes with an Outcome — it appends exactly
one TrialRecord {offset, width, outcome} per visited cell, the outcome
being the `reduce_results` reduction of that cell's scripted trial
outcomes (Mute, Odd and Successful included, not only Normal); if an
Init-phase read comes back empty, the trial's IndexError instead aborts
the sweep mid-grid and no further records are appended.  In particular,
with offset range (0, 2·period, period), width range (0, period,
period/2), one attempt per point and the always-NACK command-phase stub,
it produces exactly the four Normal records (0,0), (0,period/2),
(period,0), (period,period/2) in that order.  `test_setup` and
`test_teardown` exist nowhere in the sources and are modelled from the
spec as no-op hooks. -/
theorem claim_C7_search_row_major :
    (∀ (cfg : SweepCfg) (fuelO fuelW : Nat) (s : SweepState)
        (reads : Nat → Option Nat) (k : Nat),
      cfg.clkgen_freq ≠ 0 → 1 ≤ cfg.attempts →
      (∀ i, reads (2 * i) ≠ none) →
      s.t.reads = reads → s.t.rpos = 2 * k →
      ∃ s', search cfg fuelO fuelW s = .ok s' ∧
        s'.results = s.results ++
          sweepRecords reads cfg.attempts s.t.rpos
            (gridCells cfg fuelO fuelW)) ∧
    (∃ s', search cfg0 3 3 sweep0 = .ok s' ∧
      s'.results =
        [{ offset := 0, width := 0, result := .NORMAL },
         { offset := 0, width := 1/2, result := .NORMAL },
         { offset := 1, width := 0, result := .NORMAL },
         { offset := 1, width := 1/2, result := .NORMAL }]) := by
  have hgen : ∀ (cfg : SweepCfg) (fuelO fuelW : Nat) (s : SweepState)
      (reads : Nat → Option Nat) (k : Nat),
      cfg.clkgen_freq ≠ 0 → 1 ≤ cfg.attempts →
      (∀ i, reads (2 * i) ≠ none) →
      s.t.reads = reads → s.t.rpos = 2 * k →
      ∃ s', search cfg fuelO fuelW s = .ok s' ∧
        s'.results = s.results ++
          sweepRecords reads cfg.attempts s.t.rpos
            (gridCells cfg fuelO fuelW) :=
    fun cfg fuelO fuelW s reads k hf ha hbt hr hp =>
      search_answered cfg fuelO fuelW s reads k hbt hf ha hr hp
  refine ⟨hgen, ?_⟩
  obtain ⟨s', hs, hres⟩ :=
    hgen cfg0 3 3 sweep0 nackStub 0 (by norm_num [cfg0]) (by norm_num [cfg0])
      (by intro i; simp [nackStub, Nat.mul_mod_right]) rfl rfl
  refine ⟨s', hs, ?_⟩
  rw [hres]
  have hcells : gridCells cfg0 3 3 =
      [((0 : ℚ), (0 : ℚ)), (0, 1/2), (1, 0), (1, 1/2)] := by
    norm_num [gridCells, gridOffsets, gridWidths, cfg0]
  rw [hcells]
  rfl

/-- Claim C7, counterexample: over a completely silent transport the very
first trial's Init read is empty, so the sweep aborts with IndexError and
appends no TrialRecord at all, although the grid has four cells to
visit — the unscoped one-record-per-visited-cell invariant of the
original claim fails. -/
theorem claim_C7_counterexample :
    search cfg0 3 3 sweepEmpty = .error .indexError ∧
    (gridCells cfg0 3 3).length = 4 := by
  constructor
  · norm_num [search, offset_loop, width_loop, test_parameter_set,
      run_attempts, test_one, treset, init_bootloader, read_ack, tread1,
      twrite, start_read_memory, calculate_offset_parameters,
      calculate_width_parameters, modfFrac, constrain_width, cfg0,
      sweepEmpty, g0]
  · norm_num [gridCells, gridOffsets, gridWidths, cfg0]

/-- Claim C7, witness: the amended row-major statement applied to a
transport whose four cells yield the four different outcomes Normal,
Successful, Odd and Mute. -/
theorem claim_C7_witness :
    ∃ s', search cfg0 3 3 sweepMix = .ok s' ∧
      s'.results = sweepMix.results ++
        sweepRecords mixStub cfg0.attempts sweepMix.t.rpos
          (gridCells cfg0 3 3) :=
  claim_C7_search_row_major.1 cfg0 3 3 sweepMix mixStub 0
    (by norm_num [cfg0]) (by norm_num [cfg0])
    (by intro i; simp [mixStub, Nat.mul_mod_right]) rfl rfl

/-- Claim C8 (confirmed).  With a positive clock frequency: a width below
one period gives repeat_count exactly 1 and width percentage
constrain_width((w/p)*100); a width of at least one period gives
repeat_count = floor(w/p) with 1 <= repeat_count, and the width
percentage is the fractional part of w/p passed through constrain_width
twice in sequence. -/
theorem claim_C8_width_parameters (w freq m : ℚ) (g : GlitchSettings)
    (hf : 0 < freq) :
    ∃ g1, calculate_width_parameters w freq m g = .ok g1 ∧
      (w < 1 / freq →
        g1.repeat_count = 1 ∧
        g1.width = constrain_width (w / (1 / freq) * 100) m) ∧
      (1 / freq ≤ w →
        g1.repeat_count = ⌊w / (1 / freq)⌋ ∧ 1 ≤ g1.repeat_count ∧
        g1.width = constrain_width
          (constrain_width (w / (1 / freq) - ⌊w / (1 / freq)⌋) m) m) := by
  have hf0 : freq ≠ 0 := ne_of_gt hf
  unfold calculate_width_parameters
  rw [if_neg hf0]
  by_cases hc : w < 1 / freq
  · rw [if_pos hc]
    exact ⟨_, rfl, fun _ => ⟨rfl, rfl⟩, fun hge => absurd hc (not_lt.2 hge)⟩
  · rw [if_neg hc]
    push_neg at hc
    have hp : (0 : ℚ) < 1 / freq := by positivity
    have hideal : (1 : ℚ) ≤ w / (1 / freq) := (one_le_div hp).2 hc
    have hmf : modfFrac (w / (1 / freq)) =
        w / (1 / freq) - ⌊w / (1 / freq)⌋ :=
      modfFrac_of_nonneg _ (by linarith)
    refine ⟨_, rfl, fun hlt => absurd hlt (not_lt.2 hc),
      fun _ => ⟨rfl, ?_, ?_⟩⟩
    · exact_mod_cast Int.le_floor.2 (by exact_mod_cast hideal)
    · rw [hmf]

/-- Claim C8, witness: w = 5/2 periods at frequency 1 gives
repeat_count 2 and the double-constrained fractional width. -/
theorem claim_C8_witness :
    ∃ g1, calculate_width_parameters (5/2) 1 30 g0 = .ok g1 ∧
      ((5/2 : ℚ) < 1 / 1 →
        g1.repeat_count = 1 ∧
        g1.width = constrain_width ((5/2) / (1 / 1) * 100) 30) ∧
      ((1 : ℚ) / 1 ≤ 5/2 →
        g1.repeat_count = ⌊(5/2 : ℚ) / (1 / 1)⌋ ∧ 1 ≤ g1.repeat_count ∧
        g1.width = constrain_width
          (constrain_width ((5/2 : ℚ) / (1 / 1) - ⌊(5/2 : ℚ) / (1 / 1)⌋)
            30) 30) :=
  claim_C8_width_parameters (5/2) 1 30 g0 (by norm_num)

/-- Claim C9 (confirmed).  constrain_width computes exactly the linear
rescale desired * (49.8 - m) / 100 + m; hence for m < 49.8 it maps 0 to
m and 100 to 49.8, and every desired value in [0, 100] lands in
[m, 49.8]. -/
theorem claim_C9_constrain_width (d m : ℚ) (hm : m < 49.8) :
    constrain_width d m = d * (49.8 - m) / 100 + m ∧
    constrain_width 0 m = m ∧
    constrain_width 100 m = 49.8 ∧
    (0 ≤ d → d ≤ 100 →
      m ≤ constrain_width d m ∧ constrain_width d m ≤ 49.8) := by
  refine ⟨rfl, by simp [constrain_width], ?_, fun h0 h100 => ⟨?_, ?_⟩⟩
  · unfold constrain_width; ring
  · unfold constrain_width
    nlinarith
  · unfold constrain_width
    nlinarith

/-- Claim C9, witness: the endpoint images at m = 30. -/
theorem claim_C9_witness :
    constrain_width 0 30 = 30 ∧ constrain_width 100 30 = 49.8 :=
  ⟨(claim_C9_constrain_width 0 30 (by norm_num)).2.1,
   (claim_C9_constrain_width 100 30 (by norm_num)).2.2.1⟩

end Cwfriend
